import Mathlib

/-!
Verification development for the Endpoint Discovery core (pilot/pkg/proxy/envoy/v2/eds.go).

The Go source is shallowly embedded: Go maps become association lists, uint32
arithmetic becomes Nat arithmetic with explicit reduction modulo 2^32 where the
source can wrap, pointer-valued protobuf fields become Option, and fallible code
returns Except. Functions from the model/util packages of the repository that are
not part of eds.go are modelled from the specification and are marked as such in
their doc comments. Side effects that are pure diagnostics in the source
(logging, prometheus counters, push-status records, timestamps) are omitted; the
mutation of server state and the full/incremental push signal are returned as
values.
-/

/-- Label set of an endpoint or of a subset selector: an association list of
key/value pairs mirroring a Go map with string keys and values. -/
abbrev Labels := List (String × String)

/-- Association-list lookup with Go map semantics (first binding wins). -/
def alookup {α : Type} (k : String) : List (String × α) → Option α
  | [] => none
  | (k', v) :: t => if k' = k then some v else alookup k t

/-- Go map insert on an association list: replace the binding of the key in
place, or append a fresh binding. -/
def ainsert {α : Type} (k : String) (v : α) : List (String × α) → List (String × α)
  | [] => [(k, v)]
  | (k', v') :: t => if k' = k then (k, v) :: t else (k', v') :: ainsert k v t

/-- Go map delete on an association list. -/
def aerase {α : Type} (k : String) : List (String × α) → List (String × α)
  | [] => []
  | (k', v) :: t => if k' = k then aerase k t else (k', v) :: aerase k t

/-- Update the binding of `k` through `f`, creating it from the default `d`
when absent; mirrors the read-modify-write pattern on a Go map entry. -/
def updateAssoc {α : Type} (k : String) (f : α → α) (d : α) : List (String × α) → List (String × α)
  | [] => [(k, f d)]
  | (k', v) :: t => if k' = k then (k', f v) :: t else (k', v) :: updateAssoc k f d t

/-- Modelled from the spec: the label-subset test used by the assignment
builder (model.Labels.SubsetOf / LabelsCollection.HasSubsetOf, outside src/):
"an endpoint matches iff its labels contain every key with equal value". -/
def labelsSubsetOf (sel : Labels) (l : Labels) : Bool :=
  sel.all (fun kv => alookup kv.1 l == some kv.2)

/-- model.AddressFamily: TCP socket addresses versus Unix domain sockets. -/
inductive AddressFamily
  | tcp
  | unix
  deriving DecidableEq

/-- core.Address: either a socket address with port or a pipe path. -/
inductive CoreAddress
  | socket (address : String) (port : Nat)
  | pipe (path : String)
  deriving DecidableEq

/-- endpoint.LbEndpoint, reduced to the parts the source manipulates: the wire
address and the fields of the struct stored under the "istio" key of the
filter metadata (`Metadata.FilterMetadata["istio"].Fields`), `none` when no
metadata is attached. -/
structure LbEndpoint where
  addr : CoreAddress
  metadata : Option (List (String × String))
  deriving DecidableEq

/-- buildEnvoyLbEndpoint (eds.go, incremental path): builds the wire endpoint
from the raw fields; attaches "istio" metadata with both a uid and a network
field exactly when the UID is non-empty. -/
def buildEnvoyLbEndpoint (UID : String) (family : AddressFamily) (address : String)
    (port : Nat) (network : String) : LbEndpoint :=
  let addr : CoreAddress :=
    match family with
    | .tcp => .socket address port
    | .unix => .pipe address
  { addr := addr
    metadata :=
      if UID != "" then
        some [("uid", UID), ("network", network)]
      else
        none }

/-- model.NetworkEndpoint, reduced to the fields read by eds.go. -/
structure NetworkEndpoint where
  Family : AddressFamily := .tcp
  Address : String := ""
  Port : Nat := 0
  UID : String := ""
  Network : String := ""
  deriving DecidableEq

/-- Modelled from the spec: model.ValidateNetworkEndpointAddress (outside
src/) — "address is validated at ingest; either a TCP socket address+port or
a pipe path is present". The embedding keeps only that an address string must
be present; the claims never depend on which addresses validate. -/
def ValidateNetworkEndpointAddress (e : NetworkEndpoint) : Bool :=
  e.Address != ""

/-- Modelled from the spec: util.GetNetworkEndpointAddress (outside src/)
converts the network endpoint into the wire address for its family. -/
def GetNetworkEndpointAddress (e : NetworkEndpoint) : CoreAddress :=
  match e.Family with
  | .tcp => .socket e.Address e.Port
  | .unix => .pipe e.Address

/-- networkEndpointToEnvoyEndpoint (eds.go, full path): validates the address,
then builds the wire endpoint; the "istio" metadata struct is created when the
UID or the network is non-empty, and each of the two fields is added exactly
when non-empty. -/
def networkEndpointToEnvoyEndpoint (e : NetworkEndpoint) : Except String LbEndpoint :=
  if ValidateNetworkEndpointAddress e = false then
    .error "invalid network endpoint address"
  else
    let meta0 : Option (List (String × String)) :=
      if e.UID != "" || e.Network != "" then some [] else none
    let meta1 :=
      if e.UID != "" then meta0.map (fun fs => fs ++ [("uid", e.UID)]) else meta0
    let meta2 :=
      if e.Network != "" then meta1.map (fun fs => fs ++ [("network", e.Network)]) else meta1
    .ok { addr := GetNetworkEndpointAddress e, metadata := meta2 }

/-- endpoint.LocalityLbEndpoints, reduced to the parts the source manipulates:
the locality zone, the endpoint list and the (pointer-valued, hence optional)
load-balancing weight. -/
structure LocalityLbEndpoints where
  Zone : String
  LbEndpoints : List LbEndpoint
  LoadBalancingWeight : Option Nat
  deriving DecidableEq

/-- Nil-safe weight read, mirroring GetLoadBalancingWeight().GetValue()
(a nil pointer reads as 0). -/
def getLbWeight (g : LocalityLbEndpoints) : Nat :=
  g.LoadBalancingWeight.getD 0

/-- Modulus of Go's uint32 arithmetic. -/
def u32 : Nat := 4294967296

/-- Ceiling division on Nat; models uint32(math.Ceil(float64 a / float64 b)).
Both operands are below 2^32 wherever this is used, so they are exactly
representable in float64 and the result fits uint32 without truncation. -/
def ceilDivN (a b : Nat) : Nat := (a + b - 1) / b

/-- normalizeLoadBalancingWeight (eds.go): sums the raw weights in uint32
arithmetic; when the (wrapped) total is 0 the input slice is returned as is,
otherwise a fresh slice is produced in which each group's weight is the
ceiling of raw*maxLoadBalancingWeight/total, the multiplication wrapping in
uint32 as in the source. The Go function writes only the fresh `out` slice
(the range variable is a copy), so the embedding as a pure function is exact:
the input list is never mutated. -/
def normalizeLoadBalancingWeight (endpoints : List LocalityLbEndpoints) :
    List LocalityLbEndpoints :=
  let totalLbEndpointsNum := endpoints.foldl (fun acc g => (acc + getLbWeight g) % u32) 0
  if totalLbEndpointsNum = 0 then
    endpoints
  else
    endpoints.map (fun g =>
      { g with LoadBalancingWeight := some (ceilDivN ((getLbWeight g * 128) % u32) totalLbEndpointsNum) })

/-- Mathematical (unwrapped) sum of the raw weights of a group list. -/
def sumWeights (l : List LocalityLbEndpoints) : Nat :=
  l.foldl (fun a g => a + getLbWeight g) 0

/-- A locality group carrying only a raw weight, for concrete test inputs. -/
def weightOnlyGroup (w : Nat) : LocalityLbEndpoints :=
  { Zone := "", LbEndpoints := [], LoadBalancingWeight := some w }

theorem foldl_add_shift (l : List LocalityLbEndpoints) :
    ∀ a : Nat, l.foldl (fun a g => a + getLbWeight g) a
      = a + l.foldl (fun a g => a + getLbWeight g) 0 := by
  induction l with
  | nil => intro a; simp
  | cons g t ih =>
    intro a
    simp only [List.foldl_cons]
    rw [ih (a + getLbWeight g), ih (0 + getLbWeight g)]
    omega

theorem sumWeights_cons (g : LocalityLbEndpoints) (t : List LocalityLbEndpoints) :
    sumWeights (g :: t) = getLbWeight g + sumWeights t := by
  simp only [sumWeights, List.foldl_cons]
  rw [foldl_add_shift t (0 + getLbWeight g)]
  omega

theorem wrapped_total_eq_sum (l : List LocalityLbEndpoints) :
    ∀ a : Nat, a + sumWeights l < u32 →
      l.foldl (fun acc g => (acc + getLbWeight g) % u32) a = a + sumWeights l := by
  induction l with
  | nil => intro a _; simp [sumWeights]
  | cons g t ih =>
    intro a h
    rw [sumWeights_cons] at h
    simp only [List.foldl_cons]
    have hlt : a + getLbWeight g < u32 := by omega
    rw [Nat.mod_eq_of_lt hlt, ih (a + getLbWeight g) (by omega)]
    rw [sumWeights_cons]
    omega

/-- C1 (amended): provided no uint32 overflow occurs — each raw weight below
2^25 so that raw*128 fits in uint32, and the total below 2^32 — the weight
normalizer returns its input unchanged when the total raw weight is 0, and
otherwise sets every group's weight to ceil(raw*128/total). The S2 instance
(raw weights 2,1,1 giving 64,32,32) is checked in the witness. The input list
is not mutated: the Go function writes only a fresh out slice (the range
variable is a copy), which the pure embedding reflects exactly. -/
theorem normalizeLoadBalancingWeight_formula (l : List LocalityLbEndpoints)
    (hsmall : ∀ g ∈ l, getLbWeight g < 33554432)
    (hsum : sumWeights l < u32) :
    (sumWeights l = 0 → normalizeLoadBalancingWeight l = l)
    ∧ (sumWeights l ≠ 0 →
        (normalizeLoadBalancingWeight l).map getLbWeight
          = l.map (fun g => ceilDivN (getLbWeight g * 128) (sumWeights l))) := by
  have htot : l.foldl (fun acc g => (acc + getLbWeight g) % u32) 0 = sumWeights l := by
    have h := wrapped_total_eq_sum l 0 (by omega)
    simpa using h
  constructor
  · intro h0
    simp [normalizeLoadBalancingWeight, htot, h0]
  · intro hne
    simp only [normalizeLoadBalancingWeight, htot]
    rw [if_neg hne, List.map_map]
    apply List.map_congr_left
    intro g hg
    have hw : getLbWeight g * 128 < u32 := by
      have hs := hsmall g hg
      simp only [u32]
      omega
    simp only [Function.comp, getLbWeight, Option.getD_some]
    rw [Nat.mod_eq_of_lt]
    exact hw

/-- Witness for C1: the S2 scenario, raw weights 2,1,1; the formula applies and
the normalized weights are 64, 32, 32. -/
theorem normalizeLoadBalancingWeight_formula_witness :
    (normalizeLoadBalancingWeight [weightOnlyGroup 2, weightOnlyGroup 1, weightOnlyGroup 1]).map getLbWeight
      = [weightOnlyGroup 2, weightOnlyGroup 1, weightOnlyGroup 1].map
          (fun g => ceilDivN (getLbWeight g * 128)
            (sumWeights [weightOnlyGroup 2, weightOnlyGroup 1, weightOnlyGroup 1]))
    ∧ (normalizeLoadBalancingWeight [weightOnlyGroup 2, weightOnlyGroup 1, weightOnlyGroup 1]).map getLbWeight
      = [64, 32, 32] := by
  constructor
  · exact (normalizeLoadBalancingWeight_formula _ (by decide) (by decide)).2 (by decide)
  · decide

/-- C1 counterexample: for the single group of raw weight 2^25 the claim's
formula demands ceil(2^25*128 / 2^25) = 128, but the source's uint32
multiplication wraps 2^25*128 to 0 and the emitted weight is 0. -/
theorem normalizeLoadBalancingWeight_overflow_counterexample :
    (normalizeLoadBalancingWeight [weightOnlyGroup 33554432]).map getLbWeight = [0]
    ∧ ceilDivN (getLbWeight (weightOnlyGroup 33554432) * 128)
        (sumWeights [weightOnlyGroup 33554432]) = 128
    ∧ (0 : Nat) ≠ 128 := by
  refine ⟨by decide, by decide, by decide⟩

/-- C5 (code-bug evaluation): with raw weights 2 and 4294967295 — both valid
uint32 values — the uint32 total wraps to 1 and the normalizer emits the
weights 256 and 4294967168, each above the documented maximum of 128 and with
a sum far above 128*N, contradicting the source's own comment that the range
of LoadBalancingWeight is 1 to 128. -/
theorem normalizeLoadBalancingWeight_overflow_bug :
    (normalizeLoadBalancingWeight [weightOnlyGroup 2, weightOnlyGroup 4294967295]).map getLbWeight
      = [256, 4294967168]
    ∧ ¬ (256 ≤ 128) := by
  refine ⟨by decide, by decide⟩

/-- C3 (amended): the full-path converter networkEndpointToEnvoyEndpoint does
satisfy the metadata contract — the istio metadata is absent iff both UID and
network are empty, and when present it holds the uid field exactly when the
UID is non-empty and the network field exactly when the network is non-empty.
The incremental-path builder buildEnvoyLbEndpoint does not: it attaches
metadata exactly when the UID is non-empty, and that metadata then always
contains both a uid and a network field, the latter possibly empty. -/
theorem endpointMetadata_contract (UID : String) (family : AddressFamily)
    (address : String) (port : Nat) (network : String)
    (e : NetworkEndpoint) (ep : LbEndpoint) :
    ((buildEnvoyLbEndpoint UID family address port network).metadata
      = if UID = "" then none else some [("uid", UID), ("network", network)])
    ∧ (networkEndpointToEnvoyEndpoint e = .ok ep →
        ep.metadata = if e.UID = "" ∧ e.Network = "" then none
          else some ((if e.UID = "" then [] else [("uid", e.UID)])
            ++ (if e.Network = "" then [] else [("network", e.Network)]))) := by
  constructor
  · by_cases h : UID = "" <;> simp [buildEnvoyLbEndpoint, h]
  · intro hok
    by_cases hv : ValidateNetworkEndpointAddress e = false
    · simp [networkEndpointToEnvoyEndpoint, hv] at hok
    · simp only [networkEndpointToEnvoyEndpoint, if_neg hv, Except.ok.injEq] at hok
      subst hok
      by_cases hu : e.UID = "" <;> by_cases hn : e.Network = "" <;>
        simp [hu, hn]

/-- Concrete endpoint with empty UID and non-empty network, for the C3 witness. -/
def sampleNetworkEndpoint : NetworkEndpoint :=
  { Family := .tcp, Address := "10.0.0.2", Port := 80, UID := "", Network := "n2" }

/-- Wire endpoint produced from sampleNetworkEndpoint on the full path. -/
def sampleWireEndpoint : LbEndpoint :=
  { addr := .socket "10.0.0.2" 80, metadata := some [("network", "n2")] }

/-- Witness for C3: on the incremental path a non-empty UID yields metadata
with both fields, and on the full path an endpoint with empty UID and network
"n2" yields metadata holding exactly the network field. -/
theorem endpointMetadata_contract_witness :
    (buildEnvoyLbEndpoint "u1" AddressFamily.tcp "10.0.0.1" 80 "n1").metadata
      = some [("uid", "u1"), ("network", "n1")]
    ∧ sampleWireEndpoint.metadata = some [("network", "n2")] := by
  have h := endpointMetadata_contract "u1" AddressFamily.tcp "10.0.0.1" 80 "n1"
    sampleNetworkEndpoint sampleWireEndpoint
  refine ⟨?_, ?_⟩
  · rw [h.1]; decide
  · rw [h.2 rfl]; decide

/-- C3 counterexample: on the incremental path, an endpoint whose UID is empty
but whose network is the non-empty string "n1" gets no metadata at all, while
the claim requires an istio metadata entry with the network field present. -/
theorem buildEnvoyLbEndpoint_network_counterexample :
    (buildEnvoyLbEndpoint "" AddressFamily.tcp "10.0.0.1" 80 "n1").metadata = none
    ∧ "n1" ≠ "" := by
  refine ⟨rfl, by decide⟩

/-- model.IstioEndpoint, reduced to the fields read by eds.go; the cached
wire endpoint is the nullable EnvoyEndpoint pointer of the source. -/
structure IstioEndpoint where
  Family : AddressFamily := .tcp
  Address : String := ""
  EndpointPort : Nat := 0
  ServicePortName : String := ""
  Labels : Labels := []
  UID : String := ""
  ServiceAccount : String := ""
  Network : String := ""
  EnvoyEndpoint : Option LbEndpoint := none
  deriving DecidableEq

/-- EndpointShard (eds.go): one registry's contribution for one service. -/
structure EndpointShard where
  Shard : String
  Entries : List IstioEndpoint
  deriving DecidableEq

/-- EndpointShardsByService (eds.go): per-service shard map plus the set of
service accounts, the Go map[string]bool modelled as the list of its keys. -/
structure EndpointShardsByService where
  Shards : List (String × EndpointShard)
  ServiceAccounts : List String
  deriving DecidableEq

/-- The service-name-keyed shard store of the discovery server. -/
abbrev ShardStore := List (String × EndpointShardsByService)

/-- The parts of DiscoveryServer state that edsUpdate reads and writes. -/
structure ServerState where
  EndpointShardsByService : ShardStore
  edsUpdates : ShardStore
  deriving DecidableEq

/-- edsUpdate (eds.go): replaces the given shard of the service wholesale and
computes the push classification. The returned Bool is the argument the
source passes to ConfigUpdate — true demands a full push, false an
incremental one. The source's loop copies every entry into the new shard and
flags a full push for a non-empty service account absent from the service's
account set, but only when internal is false; the account set itself is never
written. -/
def edsUpdate (s : ServerState) (shard serviceName : String)
    (entries : List IstioEndpoint) (internal : Bool) : ServerState × Bool :=
  let found := alookup serviceName s.EndpointShardsByService
  let ep : EndpointShardsByService :=
    match found with
    | some ep => ep
    | none => { Shards := [], ServiceAccounts := [] }
  let requireFull0 : Bool := found.isNone && !internal
  let ce : EndpointShard := { Shard := shard, Entries := entries }
  let requireFull : Bool :=
    entries.foldl (fun rf e =>
      if e.ServiceAccount != "" && !(ep.ServiceAccounts.contains e.ServiceAccount) && !internal
      then true else rf) requireFull0
  let ep' : EndpointShardsByService := { ep with Shards := ainsert shard ce ep.Shards }
  ({ s with EndpointShardsByService := ainsert serviceName ep' s.EndpointShardsByService
            edsUpdates := ainsert serviceName ep' s.edsUpdates }, requireFull)

/-- EDSUpdate (eds.go), the exposed endpoint update interface: forwards to
edsUpdate with internal = false and returns a nil error unconditionally. The
triple is (new state, ConfigUpdate flag, returned error). -/
def EDSUpdate (s : ServerState) (shard serviceName : String)
    (entries : List IstioEndpoint) : ServerState × Bool × Option String :=
  let r := edsUpdate s shard serviceName entries false
  (r.1, r.2, none)

/-- Service-account set of a service in the store, when the service is known. -/
def serviceAccountsOf (s : ServerState) (serviceName : String) : Option (List String) :=
  (alookup serviceName s.EndpointShardsByService).map (fun ep => ep.ServiceAccounts)

theorem alookup_ainsert_self {α : Type} (k : String) (v : α) (l : List (String × α)) :
    alookup k (ainsert k v l) = some v := by
  induction l with
  | nil => simp [ainsert, alookup]
  | cons p t ih =>
    rcases p with ⟨k', v'⟩
    by_cases h : k' = k
    · simp [ainsert, alookup, h]
    · simp [ainsert, alookup, h, ih]

theorem alookup_ainsert_ne {α : Type} (k k' : String) (v : α) (l : List (String × α))
    (h : k' ≠ k) : alookup k' (ainsert k v l) = alookup k' l := by
  induction l with
  | nil => simp [ainsert, alookup, Ne.symm h]
  | cons p t ih =>
    rcases p with ⟨k0, v0⟩
    by_cases h0 : k0 = k
    · subst h0
      simp [ainsert, alookup, Ne.symm h]
    · simp only [ainsert, if_neg h0]
      simp [alookup, ih]

/-- C2 (amended): edsUpdate never changes the service-account set — after any
call, a known service keeps exactly its prior set, and a newly created
service record gets the empty set. The union invariant over shard endpoints
is therefore not maintained by edsUpdate itself; the source only flags a full
push for a new account and relies on the reconciler's wholesale replacement
of the set. -/
theorem edsUpdate_preserves_serviceAccounts (s : ServerState) (shard serviceName : String)
    (entries : List IstioEndpoint) (internal : Bool) :
    serviceAccountsOf (edsUpdate s shard serviceName entries internal).1 serviceName
      = some ((serviceAccountsOf s serviceName).getD []) := by
  unfold edsUpdate serviceAccountsOf
  cases h : alookup serviceName s.EndpointShardsByService with
  | none => simp [h, alookup_ainsert_self]
  | some ep => simp [h, alookup_ainsert_self]

/-- Known service with account set a, for the C2 and C4 concrete inputs. -/
def svcShardsA : EndpointShardsByService :=
  { Shards := [], ServiceAccounts := ["a"] }

/-- Server state that already knows service "svc" with accounts a. -/
def stateA : ServerState :=
  { EndpointShardsByService := [("svc", svcShardsA)], edsUpdates := [] }

/-- Endpoint carrying the previously-unseen service account b. -/
def endpointB : IstioEndpoint :=
  { ServiceAccount := "b", ServicePortName := "http" }

/-- C2 counterexample: scenario S4 — service "svc" has accounts a; a shard
update adds an endpoint with account b; immediately after the call the
full-push flag is set, but the service's account set is still exactly a, not
the union a,b the claim demands. -/
theorem edsUpdate_serviceAccounts_counterexample :
    serviceAccountsOf (edsUpdate stateA "s1" "svc" [endpointB] false).1 "svc" = some ["a"]
    ∧ (edsUpdate stateA "s1" "svc" [endpointB] false).2 = true
    ∧ endpointB.ServiceAccount = "b"
    ∧ ¬ ("b" ∈ (["a"] : List String)) := by
  refine ⟨by decide, by decide, rfl, by decide⟩

theorem foldl_bool_if (p : IstioEndpoint → Bool) :
    ∀ (es : List IstioEndpoint) (b : Bool),
      es.foldl (fun rf e => if p e then true else rf) b = (b || es.any p) := by
  intro es
  induction es with
  | nil => intro b; simp
  | cons e t ih =>
    intro b
    rw [List.foldl_cons, List.any_cons, ih]
    cases hpe : p e
    · simp [hpe]
    · simp [hpe]

/-- C4 (amended): the push classification of edsUpdate. The call signals a
full push (ConfigUpdate true) exactly when internal is false and either the
service was previously unknown or some entry carries a non-empty service
account not in the service's current account set; otherwise it signals an
incremental push (ConfigUpdate false). The amendment is the internal = false
condition on the new-account trigger, which the claim omitted. -/
theorem edsUpdate_push_classification (s : ServerState) (shard serviceName : String)
    (entries : List IstioEndpoint) (internal : Bool) :
    (edsUpdate s shard serviceName entries internal).2 = true ↔
      (internal = false
        ∧ (alookup serviceName s.EndpointShardsByService = none
            ∨ ∃ e ∈ entries, e.ServiceAccount ≠ ""
                ∧ ¬ e.ServiceAccount ∈ ((serviceAccountsOf s serviceName).getD []))) := by
  unfold edsUpdate serviceAccountsOf
  cases h : alookup serviceName s.EndpointShardsByService with
  | none =>
    simp only [h]
    rw [foldl_bool_if]
    cases internal <;> simp [List.any_eq_true, bne_iff_ne]
  | some ep =>
    simp only [h]
    rw [foldl_bool_if]
    cases internal <;> simp [List.any_eq_true, bne_iff_ne]

/-- Witness for C4: in the S4 scenario (known service, entry with a fresh
account b, internal = false) the classification theorem yields a full push. -/
theorem edsUpdate_push_classification_witness :
    (edsUpdate stateA "s1" "svc" [endpointB] false).2 = true := by
  exact (edsUpdate_push_classification stateA "s1" "svc" [endpointB] false).mpr
    ⟨rfl, Or.inr ⟨endpointB, by decide, by decide, by decide⟩⟩

/-- C4 counterexample: a call with internal = true whose entry carries a
non-empty, previously-unseen service account for a known service — the claim
as stated demands a full push, but the source signals ConfigUpdate false. -/
theorem edsUpdate_internal_counterexample :
    (edsUpdate stateA "s1" "svc" [endpointB] true).2 = false
    ∧ endpointB.ServiceAccount ≠ ""
    ∧ ¬ endpointB.ServiceAccount ∈ ((serviceAccountsOf stateA "svc").getD [])
    ∧ alookup "svc" stateA.EndpointShardsByService ≠ none := by
  refine ⟨by decide, by decide, by decide, by decide⟩

/-- C10: the exposed EDSUpdate returns a nil error on every input, despite
its error-returning signature. -/
theorem EDSUpdate_never_errors (s : ServerState) (shard serviceName : String)
    (entries : List IstioEndpoint) :
    (EDSUpdate s shard serviceName entries).2.2 = none := by
  rfl

/-- xdsapi.ClusterLoadAssignment, reduced to name and locality groups. -/
structure ClusterLoadAssignment where
  ClusterName : String
  Endpoints : List LocalityLbEndpoints
  deriving DecidableEq

/-- EdsCluster (eds.go): the per-cluster registry entry — the latest (nullable)
assignment and the node-keyed set of monitoring connections. Connections are
compared by pointer in the source; they are modelled by numeric identifiers,
distinct numbers standing for distinct connections. Timestamps and the
back-reference to the discovery server are omitted. -/
structure EdsCluster where
  LoadAssignment : Option ClusterLoadAssignment
  EdsClients : List (String × Nat)
  deriving DecidableEq

/-- The process-wide edsClusters map: cluster name to entry. -/
abbrev EdsClusters := List (String × EdsCluster)

/-- getEdsCluster (eds.go): registry lookup. -/
def getEdsCluster (reg : EdsClusters) (clusterName : String) : Option EdsCluster :=
  alookup clusterName reg

/-- removeEdsCon (eds.go): removes the connection recorded for the node, but
only when the passed connection is the one currently recorded; when the
client set becomes empty the whole cluster entry is deleted from the
registry. The mutation of the surviving entry through its pointer is
modelled by rebinding the cluster name in the registry. -/
def removeEdsCon (reg : EdsClusters) (clusterName node : String) (conn : Nat) : EdsClusters :=
  match getEdsCluster reg clusterName with
  | none => reg
  | some c =>
    match alookup node c.EdsClients with
    | none => reg
    | some oldcon =>
      if oldcon ≠ conn then reg
      else
        let clients := aerase node c.EdsClients
        if clients = [] then aerase clusterName reg
        else ainsert clusterName { c with EdsClients := clients } reg

theorem alookup_aerase_self {α : Type} (k : String) (l : List (String × α)) :
    alookup k (aerase k l) = none := by
  induction l with
  | nil => rfl
  | cons p t ih =>
    rcases p with ⟨k', v⟩
    by_cases h : k' = k
    · simp [aerase, h, ih]
    · simp [aerase, alookup, h, ih]

/-- C8: removeEdsCon deletes the recorded connection only when the passed
handle is the recorded one — a stale handle leaves the registry untouched —
and when the removal empties the entry's client set the cluster entry itself
is deleted, so getEdsCluster then returns none; otherwise the entry survives
with exactly that node's binding removed. -/
theorem removeEdsCon_spec (reg : EdsClusters) (clusterName node : String) (conn : Nat) :
    (∀ c oldcon, getEdsCluster reg clusterName = some c →
      alookup node c.EdsClients = some oldcon → oldcon ≠ conn →
      removeEdsCon reg clusterName node conn = reg)
    ∧ (∀ c, getEdsCluster reg clusterName = some c →
        alookup node c.EdsClients = some conn →
        (aerase node c.EdsClients = [] →
          getEdsCluster (removeEdsCon reg clusterName node conn) clusterName = none)
        ∧ (aerase node c.EdsClients ≠ [] →
          getEdsCluster (removeEdsCon reg clusterName node conn) clusterName
            = some { c with EdsClients := aerase node c.EdsClients })) := by
  constructor
  · intro c oldcon hc hold hne
    simp [removeEdsCon, hc, hold, hne]
  · intro c hc hold
    have hc' : alookup clusterName reg = some c := hc
    constructor
    · intro hemp
      simp [removeEdsCon, getEdsCluster, hc', hold, hemp, alookup_aerase_self]
    · intro hne
      simp [removeEdsCon, getEdsCluster, hc', hold, hne, alookup_ainsert_self]

/-- Registry with one cluster watched by two connections, for the C8 witness
(scenario S6). -/
def twoClientRegistry : EdsClusters :=
  [("C", { LoadAssignment := none, EdsClients := [("n1", 1), ("n2", 2)] })]

/-- Witness for C8: scenario S6 — a stale handle for n1 changes nothing; after
both subscribers are removed with their live handles the entry is gone and
getEdsCluster returns none. -/
theorem removeEdsCon_spec_witness :
    removeEdsCon twoClientRegistry "C" "n1" 7 = twoClientRegistry
    ∧ getEdsCluster
        (removeEdsCon (removeEdsCon twoClientRegistry "C" "n1" 1) "C" "n2" 2) "C" = none := by
  constructor
  · exact (removeEdsCon_spec twoClientRegistry "C" "n1" 7).1
      { LoadAssignment := none, EdsClients := [("n1", 1), ("n2", 2)] } 1 (by decide) (by decide)
      (by decide)
  · exact ((removeEdsCon_spec (removeEdsCon twoClientRegistry "C" "n1" 1) "C" "n2" 2).2
      { LoadAssignment := none, EdsClients := [("n2", 2)] } (by decide) (by decide)).1 (by decide)

/-- model.ServiceInstance, reduced to the fields read by eds.go: the network
endpoint and the availability zone returned by GetAZ (modelled from the
model package, outside src/). -/
structure ServiceInstance where
  Endpoint : NetworkEndpoint
  AvailabilityZone : String := ""
  deriving DecidableEq

/-- Append a wire endpoint to the locality group of its zone, creating the
group exactly like the source (a fresh group with the zone set, then an
append). Used by both assignment paths. -/
def addEndpointToLocality (acc : List (String × LocalityLbEndpoints)) (z : String)
    (lb : LbEndpoint) : List (String × LocalityLbEndpoints) :=
  updateAssoc z (fun g => { g with LbEndpoints := g.LbEndpoints ++ [lb] })
    { Zone := z, LbEndpoints := [], LoadBalancingWeight := none } acc

/-- localityLbEndpointsFromInstances (eds.go): converts every instance,
skipping the ones whose address fails validation, and groups the wire
endpoints by availability zone. The Go map's nondeterministic iteration
order is fixed to first-creation order of the zones. -/
def localityLbEndpointsFromInstances (instances : List ServiceInstance) :
    List LocalityLbEndpoints :=
  let m := instances.foldl (fun acc inst =>
      match networkEndpointToEnvoyEndpoint inst.Endpoint with
      | .error _ => acc
      | .ok lbEp => addEndpointToLocality acc inst.AvailabilityZone lbEp) []
  m.map (fun p => p.2)

/-- model.TrafficDirection constant for inbound clusters. -/
def TrafficDirectionInbound : String := "inbound"

/-- model.TrafficDirection constant for outbound clusters. -/
def TrafficDirectionOutbound : String := "outbound"

/-- Publication of a fresh assignment into the cluster entry, as performed
under the entry mutex at the end of both assignment paths (the NonEmptyTime
stamp is diagnostic and omitted). -/
def installLoadAssignment (clusterName : String) (locEps : List LocalityLbEndpoints)
    (c : EdsCluster) : EdsCluster :=
  { c with LoadAssignment := some { ClusterName := clusterName, Endpoints := locEps } }

/-- updateCluster (eds.go), the full assignment path. The decoded traffic
direction of the cluster key is a parameter (model.ParseSubsetKey is outside
src/), and the outcome of the registry query InstancesByPort is passed as an
Except value. On a registry error the error propagates and the entry is left
untouched; otherwise the converted, zone-grouped instances with weight =
group size are installed; a direction that is neither inbound nor outbound
skips the query and installs an empty assignment, as in the source. -/
def updateCluster (direction clusterName : String)
    (instancesResult : Except String (List ServiceInstance)) (c : EdsCluster) :
    Except String Unit × EdsCluster :=
  if direction = TrafficDirectionInbound ∨ direction = TrafficDirectionOutbound then
    match instancesResult with
    | .error e => (.error e, c)
    | .ok instances =>
      let locEps0 := localityLbEndpointsFromInstances instances
      let locEps := locEps0.map (fun g => { g with LoadBalancingWeight := some g.LbEndpoints.length })
      (.ok (), installLoadAssignment clusterName locEps c)
  else
    (.ok (), installLoadAssignment clusterName [] c)

/-- C9: if the registry query fails, the full path returns exactly that error
and leaves the cluster entry — in particular its stored assignment —
unchanged; conversely, whenever the stored assignment changes at all, the
build returned success. -/
theorem updateCluster_error_preserves (direction clusterName : String)
    (instancesResult : Except String (List ServiceInstance)) (c : EdsCluster) :
    (∀ e, (updateCluster direction clusterName instancesResult c).1 = .error e →
      (updateCluster direction clusterName instancesResult c).2 = c)
    ∧ ((direction = TrafficDirectionInbound ∨ direction = TrafficDirectionOutbound) →
        ∀ msg, instancesResult = .error msg →
          updateCluster direction clusterName instancesResult c = (.error msg, c))
    ∧ ((updateCluster direction clusterName instancesResult c).2.LoadAssignment
          ≠ c.LoadAssignment →
        (updateCluster direction clusterName instancesResult c).1 = .ok ()) := by
  by_cases hdir : direction = TrafficDirectionInbound ∨ direction = TrafficDirectionOutbound
  · cases instancesResult with
    | error msg =>
      have heq : updateCluster direction clusterName (Except.error msg) c
          = (.error msg, c) := by
        simp [updateCluster, hdir]
      refine ⟨fun e _ => ?_, fun _ m hm => ?_, fun hchg => ?_⟩
      · rw [heq]
      · cases hm
        exact heq
      · exact (hchg (by rw [heq])).elim
    | ok instances =>
      refine ⟨fun e he => ?_, fun _ m hm => ?_, fun _ => ?_⟩
      · simp [updateCluster, hdir] at he
      · cases hm
      · simp [updateCluster, hdir]
  · refine ⟨fun e he => ?_, fun hd _ _ => absurd hd hdir, fun _ => ?_⟩
    · simp [updateCluster, hdir] at he
    · simp [updateCluster, hdir]

/-- A cluster entry that already holds an assignment, for the C9 witness. -/
def primedCluster : EdsCluster :=
  { LoadAssignment := some { ClusterName := "c1", Endpoints := [] }, EdsClients := [] }

/-- Witness for C9: an outbound build whose registry query fails returns that
error and keeps the previously stored assignment. -/
theorem updateCluster_error_preserves_witness :
    updateCluster "outbound" "c1" (.error "registry down") primedCluster
      = (.error "registry down", primedCluster)
    ∧ (updateCluster "outbound" "c1" (.error "registry down") primedCluster).2.LoadAssignment
      = some { ClusterName := "c1", Endpoints := [] } := by
  constructor
  · exact (updateCluster_error_preserves "outbound" "c1" (.error "registry down")
      primedCluster).2.1 (Or.inr rfl) "registry down" rfl
  · decide

/-- model.Port, reduced to name and number. -/
structure Port where
  Name : String
  Port : Nat
  deriving DecidableEq

/-- model.PortList. -/
abbrev PortList := List Port

/-- Modelled from the spec: port-name lookup by numeric port
(model.PortList.GetByPort, outside src/) — "look up the port-name for the
port-number via the push context's service-port mapping". -/
def GetByPort (pl : PortList) (num : Nat) : Option Port :=
  pl.find? (fun p => p.Port == num)

/-- The slice of model.PushContext read by the incremental path: the
hostname-keyed service-port mapping. -/
structure PushContext where
  ServicePort2Name : List (String × PortList)
  deriving DecidableEq

/-- Modelled from the spec: model.AZLabel (outside src/), the label key whose
value is the endpoint's availability zone; absent reads as "". -/
def AZLabel : String := "failure-domain.beta.kubernetes.io/zone"

/-- Zone grouping key of an endpoint: its AZLabel label, "" when absent. -/
def zoneKey (el : IstioEndpoint) : String :=
  (alookup AZLabel el.Labels).getD ""

/-- The filter of the incremental loop: an endpoint is taken iff its
service-port name equals the resolved port name and the subset selector
labels are a subset of its labels. -/
def matchesEp (svcPortName : String) (sel : Labels) (el : IstioEndpoint) : Bool :=
  svcPortName == el.ServicePortName && labelsSubsetOf sel el.Labels

/-- The cached wire endpoint of an entry, materialized through
buildEnvoyLbEndpoint when the cache is nil, exactly as the source does. -/
def cachedEnvoyEndpoint (el : IstioEndpoint) : LbEndpoint :=
  match el.EnvoyEndpoint with
  | some ep => ep
  | none => buildEnvoyLbEndpoint el.UID el.Family el.Address el.EndpointPort el.Network

/-- One iteration of the incremental loop body. -/
def stepEp (svcPortName : String) (sel : Labels)
    (acc : List (String × LocalityLbEndpoints)) (el : IstioEndpoint) :
    List (String × LocalityLbEndpoints) :=
  if matchesEp svcPortName sel el then
    addEndpointToLocality acc (zoneKey el) (cachedEnvoyEndpoint el)
  else
    acc

/-- The localityEpMap built by the incremental loop over all shards, the Go
map's nondeterministic iteration fixed to the shard list order and to
first-creation order of the zones. -/
def incGroupsAssoc (svcPortName : String) (sel : Labels)
    (shards : List (String × EndpointShard)) : List (String × LocalityLbEndpoints) :=
  shards.foldl (fun acc p => p.2.Entries.foldl (stepEp svcPortName sel) acc) []

/-- The locEps list of the incremental path: the groups of the map, each with
its load-balancing weight set to the number of its endpoints. -/
def incLocalityEps (svcPortName : String) (sel : Labels)
    (shards : List (String × EndpointShard)) : List LocalityLbEndpoints :=
  (incGroupsAssoc svcPortName sel shards).map
    (fun p => { p.2 with LoadBalancingWeight := some p.2.LbEndpoints.length })

/-- All endpoints of all shards, in shard order. -/
def allShardEntries : List (String × EndpointShard) → List IstioEndpoint
  | [] => []
  | p :: t => p.2.Entries ++ allShardEntries t

/-- The endpoints that the incremental loop routes into the group of zone z. -/
def matchedForZone (svcPortName : String) (sel : Labels) (z : String)
    (es : List IstioEndpoint) : List IstioEndpoint :=
  es.filter (fun el => matchesEp svcPortName sel el && (zoneKey el == z))

/-- Merge of a batch of wire endpoints into an optional existing group of
zone z; describes what the loop does to a single map entry. -/
def mergeGroup (z : String) (og : Option LocalityLbEndpoints) (ms : List LbEndpoint) :
    Option LocalityLbEndpoints :=
  match og, ms with
  | some g, ms => some { g with LbEndpoints := g.LbEndpoints ++ ms }
  | none, [] => none
  | none, ms => some { Zone := z, LbEndpoints := ms, LoadBalancingWeight := none }

theorem alookup_updateAssoc {α : Type} (k z : String) (f : α → α) (d : α)
    (l : List (String × α)) :
    alookup z (updateAssoc k f d l)
      = if z = k then some (f ((alookup k l).getD d)) else alookup z l := by
  induction l with
  | nil =>
    by_cases h : z = k
    · subst h; simp [updateAssoc, alookup]
    · simp [updateAssoc, alookup, h, Ne.symm h]
  | cons p t ih =>
    rcases p with ⟨k0, v0⟩
    by_cases h0 : k0 = k
    · subst h0
      by_cases hz : z = k0
      · subst hz; simp [updateAssoc, alookup]
      · simp [updateAssoc, alookup, hz, Ne.symm hz]
    · by_cases hz : k0 = z
      · subst hz
        have hzk : ¬ k0 = k := h0
        simp [updateAssoc, alookup, h0, fun hh => hzk (hh : k0 = k)]
      · simp [updateAssoc, alookup, h0, hz, ih]

theorem mergeGroup_nil (z : String) (og : Option LocalityLbEndpoints) :
    mergeGroup z og [] = og := by
  cases og <;> simp [mergeGroup]

theorem mergeGroup_cons (z : String) (og : Option LocalityLbEndpoints)
    (m : LbEndpoint) (ms : List LbEndpoint) :
    mergeGroup z (mergeGroup z og [m]) ms = mergeGroup z og (m :: ms) := by
  cases og with
  | some g => cases ms <;> simp [mergeGroup]
  | none => cases ms <;> simp [mergeGroup]

theorem stepEp_foldl_lookup (svcPortName : String) (sel : Labels) (z : String) :
    ∀ (es : List IstioEndpoint) (acc : List (String × LocalityLbEndpoints)),
      alookup z (es.foldl (stepEp svcPortName sel) acc)
        = mergeGroup z (alookup z acc)
            ((matchedForZone svcPortName sel z es).map cachedEnvoyEndpoint) := by
  intro es
  induction es with
  | nil =>
    intro acc
    simp [matchedForZone, mergeGroup_nil]
  | cons el t ih =>
    intro acc
    rw [List.foldl_cons, ih (stepEp svcPortName sel acc el)]
    by_cases hm : matchesEp svcPortName sel el = true
    · by_cases hz : zoneKey el = z
      · have hml : matchedForZone svcPortName sel z (el :: t)
            = el :: matchedForZone svcPortName sel z t := by
          simp [matchedForZone, List.filter, hm, hz]
        rw [hml]
        simp only [stepEp, if_pos hm, addEndpointToLocality, hz, alookup_updateAssoc,
          if_pos rfl]
        cases hacc : alookup z acc with
        | none => simp [mergeGroup, mergeGroup_cons]
        | some g => simp [mergeGroup]
      · have hzb : (zoneKey el == z) = false := by
          cases hq : zoneKey el == z with
          | false => rfl
          | true => exact absurd (eq_of_beq hq) hz
        have hml : matchedForZone svcPortName sel z (el :: t)
            = matchedForZone svcPortName sel z t := by
          simp [matchedForZone, List.filter, hm, hzb]
        rw [hml]
        simp only [stepEp, if_pos hm, addEndpointToLocality, alookup_updateAssoc]
        rw [if_neg (Ne.symm hz)]
    · have hml : matchedForZone svcPortName sel z (el :: t)
          = matchedForZone svcPortName sel z t := by
        simp [matchedForZone, List.filter, hm]
      rw [hml]
      simp only [stepEp, if_neg hm]

theorem incGroupsAssoc_eq_entries (svcPortName : String) (sel : Labels) :
    ∀ (shards : List (String × EndpointShard)) (acc : List (String × LocalityLbEndpoints)),
      shards.foldl (fun acc p => p.2.Entries.foldl (stepEp svcPortName sel) acc) acc
        = (allShardEntries shards).foldl (stepEp svcPortName sel) acc := by
  intro shards
  induction shards with
  | nil => intro acc; rfl
  | cons p t ih =>
    intro acc
    rw [List.foldl_cons, ih]
    simp only [allShardEntries]
    rw [List.foldl_append]

/-- A fresh locality group for zone z holding the given endpoints, with the
weight still unset. -/
def zoneGroup (z : String) (ms : List LbEndpoint) : LocalityLbEndpoints :=
  { Zone := z, LbEndpoints := ms, LoadBalancingWeight := none }

theorem incGroupsAssoc_lookup (svcPortName : String) (sel : Labels)
    (shards : List (String × EndpointShard)) (z : String) :
    alookup z (incGroupsAssoc svcPortName sel shards)
      = if matchedForZone svcPortName sel z (allShardEntries shards) = [] then none
        else some (zoneGroup z ((matchedForZone svcPortName sel z (allShardEntries shards)).map cachedEnvoyEndpoint)) := by
  simp only [incGroupsAssoc]
  rw [incGroupsAssoc_eq_entries, stepEp_foldl_lookup]
  cases hmt : matchedForZone svcPortName sel z (allShardEntries shards) with
  | nil => simp [alookup, mergeGroup]
  | cons m ms => simp [alookup, mergeGroup, zoneGroup]

/-- updateClusterInc (eds.go), the incremental assignment path. The decode of
the cluster key (model.ParseSubsetKey) and the selector lookup
(push.SubsetToLabels), both outside src/, are parameters: hostname, port and
sel stand for their results. The three guards mirror the source: no port map
for the hostname, no port entry for the number, or no shard record for the
hostname each fall back to the full path updateCluster (which consumes the
registry query result); otherwise the assignment is built purely from the
shards and installed. -/
def updateClusterInc (push : PushContext) (sel : Labels) (hostname : String) (port : Nat)
    (shardsByService : ShardStore) (direction clusterName : String)
    (instancesResult : Except String (List ServiceInstance)) (c : EdsCluster) :
    Except String Unit × EdsCluster :=
  match alookup hostname push.ServicePort2Name with
  | none => updateCluster direction clusterName instancesResult c
  | some portMap =>
    match GetByPort portMap port with
    | none => updateCluster direction clusterName instancesResult c
    | some svcPort =>
      match alookup hostname shardsByService with
      | none => updateCluster direction clusterName instancesResult c
      | some se =>
        (.ok (), installLoadAssignment clusterName (incLocalityEps svcPort.Name sel se.Shards) c)

/-- C7: the incremental builder delegates to the full path exactly when the
push context has no port map for the hostname, the map has no entry for the
numeric port, or the shard store has no record for the hostname; when all
three lookups succeed it completes on the incremental path, and the result is
the same for every registry outcome — the registry is never consulted. -/
theorem updateClusterInc_fallback (push : PushContext) (sel : Labels) (hostname : String)
    (port : Nat) (shardsByService : ShardStore) (direction clusterName : String)
    (instancesResult : Except String (List ServiceInstance)) (c : EdsCluster) :
    ((alookup hostname push.ServicePort2Name = none
      ∨ (∃ pm, alookup hostname push.ServicePort2Name = some pm ∧ GetByPort pm port = none)
      ∨ alookup hostname shardsByService = none) →
      updateClusterInc push sel hostname port shardsByService direction clusterName
          instancesResult c
        = updateCluster direction clusterName instancesResult c)
    ∧ (∀ pm svcPort se,
        alookup hostname push.ServicePort2Name = some pm →
        GetByPort pm port = some svcPort →
        alookup hostname shardsByService = some se →
        ∀ r' : Except String (List ServiceInstance),
          updateClusterInc push sel hostname port shardsByService direction clusterName r' c
            = (.ok (), installLoadAssignment clusterName
                (incLocalityEps svcPort.Name sel se.Shards) c)) := by
  constructor
  · intro h
    rcases h with h | ⟨pm, hpm, hgb⟩ | h
    · simp [updateClusterInc, h]
    · simp [updateClusterInc, hpm, hgb]
    · cases h1 : alookup hostname push.ServicePort2Name with
      | none => simp [updateClusterInc, h1]
      | some pm =>
        cases h2 : GetByPort pm port with
        | none => simp [updateClusterInc, h1, h2]
        | some sp => simp [updateClusterInc, h1, h2, h]
  · intro pm svcPort se h1 h2 h3 r'
    simp [updateClusterInc, h1, h2, h3]

/-- Push context that knows no service, for the C7 witness. -/
def emptyPushContext : PushContext :=
  { ServicePort2Name := [] }

/-- Witness for C7: scenario S5 — a cluster whose hostname has no port map
falls back to the full path. -/
theorem updateClusterInc_fallback_witness :
    updateClusterInc emptyPushContext [] "svc.ns" 80 [] "outbound" "c1"
        (Except.ok []) primedCluster
      = updateCluster "outbound" "c1" (Except.ok []) primedCluster := by
  exact (updateClusterInc_fallback emptyPushContext [] "svc.ns" 80 [] "outbound" "c1"
    (Except.ok []) primedCluster).1 (Or.inl rfl)

/-- C6: when the incremental path applies (all three lookups succeed), the
produced assignment holds exactly the zone-keyed groups of the shard
endpoints: the group of zone z exists iff some endpoint of some shard has
that zone label, matching service-port name and selector labels; its
endpoint list is exactly the cached wire endpoints of those matching
endpoints in traversal order; and every group's pre-normalization weight is
the number of endpoints in the group. -/
theorem updateClusterInc_grouping (push : PushContext) (sel : Labels) (hostname : String)
    (port : Nat) (shardsByService : ShardStore) (direction clusterName : String)
    (instancesResult : Except String (List ServiceInstance)) (c : EdsCluster)
    (pm : PortList) (svcPort : Port) (se : EndpointShardsByService)
    (h1 : alookup hostname push.ServicePort2Name = some pm)
    (h2 : GetByPort pm port = some svcPort)
    (h3 : alookup hostname shardsByService = some se) :
    updateClusterInc push sel hostname port shardsByService direction clusterName
        instancesResult c
      = (.ok (), installLoadAssignment clusterName
          (incLocalityEps svcPort.Name sel se.Shards) c)
    ∧ (∀ z, alookup z (incGroupsAssoc svcPort.Name sel se.Shards)
        = if matchedForZone svcPort.Name sel z (allShardEntries se.Shards) = [] then none
          else some (zoneGroup z ((matchedForZone svcPort.Name sel z (allShardEntries se.Shards)).map cachedEnvoyEndpoint)))
    ∧ (∀ g, g ∈ incLocalityEps svcPort.Name sel se.Shards →
        g.LoadBalancingWeight = some g.LbEndpoints.length) := by
  refine ⟨by simp [updateClusterInc, h1, h2, h3], fun z => incGroupsAssoc_lookup _ _ _ _, ?_⟩
  intro g hg
  simp only [incLocalityEps, List.mem_map] at hg
  obtain ⟨p, hp, rfl⟩ := hg
  rfl

/-- Subset selector of scenario S3. -/
def selV2 : Labels := [("version", "v2")]

/-- Endpoint excluded by the S3 selector. -/
def epA : IstioEndpoint :=
  { ServicePortName := "http", Labels := [("version", "v1")],
    Address := "10.0.0.1", EndpointPort := 80 }

/-- Endpoint matching the S3 selector, in zone z1. -/
def epB : IstioEndpoint :=
  { ServicePortName := "http", Labels := [("version", "v2"), (AZLabel, "z1")],
    Address := "10.0.0.2", EndpointPort := 80 }

/-- Shard record of the S3 service. -/
def sampleShards : EndpointShardsByService :=
  { Shards := [("r1", { Shard := "r1", Entries := [epA, epB] })], ServiceAccounts := [] }

/-- Push context knowing the S3 service's http port. -/
def samplePush : PushContext :=
  { ServicePort2Name := [("svc.ns", [{ Name := "http", Port := 80 }])] }

/-- Shard store holding the S3 service. -/
def sampleStore : ShardStore := [("svc.ns", sampleShards)]

/-- Witness for C6: scenario S3 — the incremental path applies, and the zone
z1 group holds exactly the wire endpoint of the one matching endpoint. -/
theorem updateClusterInc_grouping_witness :
    updateClusterInc samplePush selV2 "svc.ns" 80 sampleStore "outbound" "c2"
        (Except.ok []) primedCluster
      = (.ok (), installLoadAssignment "c2"
          (incLocalityEps "http" selV2 sampleShards.Shards) primedCluster)
    ∧ alookup "z1" (incGroupsAssoc "http" selV2 sampleShards.Shards)
      = some (zoneGroup "z1" [cachedEnvoyEndpoint epB]) := by
  have h := updateClusterInc_grouping samplePush selV2 "svc.ns" 80 sampleStore "outbound" "c2"
    (Except.ok []) primedCluster [{ Name := "http", Port := 80 }] { Name := "http", Port := 80 }
    sampleShards (by decide) (by decide) (by decide)
  refine ⟨h.1, ?_⟩
  rw [h.2.1 "z1"]
  decide
